import Mathlib

/-!
Shallow embedding of `src/stp_simulation.py` (classes `Network` and `Switch`,
plus the driver-visible round operation), together with theorems checking the
natural-language specification of the repository against the code.

Modelling conventions:
* Python ints become `Int`; ports are indexed by `Nat` but are carried as `Int`
  inside hello messages and in `root_port` (whose "none" sentinel is `-1`,
  exactly as in the source).
* Python lists become `List`; the `Network.switches` dict (unique keys,
  insertion order significant) becomes an association list `List (Int × Switch)`
  in insertion order.
* Python stores neighbor `Switch` object references; the embedding stores
  neighbor ids and resolves them through the current network state, which gives
  the same live (Gauss-Seidel style) reads the source performs.
* Python exceptions (`ValueError` for a duplicate id, `KeyError` for an unknown
  id) become explicit error results of type `NetError`.
-/

namespace StpSim

/-- Hello message without arrival port: `(root_id, dist_from_root, sender_id)`,
the tuple returned by `Switch.get_hello_message` (line 90 of the source). -/
abbrev Msg3 : Type := Int × Int × Int

/-- Hello message tagged with its arrival port:
`(root_id, dist_from_root, sender_id, port_num)` (line 61 of the source). -/
abbrev Msg4 : Type := Int × Int × Int × Int

/-- Strict lexicographic comparison of 3-tuples, exactly Python's `<` on
3-tuples of ints. -/
def lt3 (a b : Msg3) : Bool :=
  decide (a.1 < b.1) || (decide (a.1 = b.1) &&
    (decide (a.2.1 < b.2.1) || (decide (a.2.1 = b.2.1) && decide (a.2.2 < b.2.2))))

/-- Strict lexicographic comparison of 4-tuples, exactly Python's `<` on
4-tuples of ints. -/
def lt4 (a b : Msg4) : Bool :=
  decide (a.1 < b.1) || (decide (a.1 = b.1) && lt3 a.2 b.2)

/-- Python's `min` over the non-empty list `x :: xs` of 3-tuples: a left fold
that keeps the earliest minimum. -/
def pyMin3 (x : Msg3) (xs : List Msg3) : Msg3 :=
  xs.foldl (fun acc m => if lt3 m acc then m else acc) x

/-- Python's `min` over the non-empty list `x :: xs` of 4-tuples: a left fold
that keeps the earliest minimum. -/
def pyMin4 (x : Msg4) (xs : List Msg4) : Msg4 :=
  xs.foldl (fun acc m => if lt4 m acc then m else acc) x

/-- Errors surfaced by the topology operations: Python raises `ValueError`
in `add_switch` for a duplicate id and `KeyError` in `remove_switch` (and in
the `add_connections` dict lookups) for an absent id. -/
inductive NetError
  | DuplicateId
  | UnknownSwitch
deriving DecidableEq

/-- State of one switch, mirroring the attributes set in `Switch.__init__`
(lines 40-51 of the source). -/
structure Switch where
  id : Int
  num_of_ports : Nat
  neighbors : List (List Int)
  pots_status : List Bool
  root_id : Int
  dist_from_root : Int
  root_port : Int
  closest_switch : Int
  weight : Int
deriving DecidableEq

/-- `Switch.__init__`: self-rooted at distance 0, no root port (`-1`),
empty neighbor list per port, every port forwarding. -/
def Switch.init (switch_id : Int) (num_of_ports : Nat) (weight : Int) : Switch :=
  { id := switch_id
    num_of_ports := num_of_ports
    neighbors := List.replicate num_of_ports []
    pots_status := List.replicate num_of_ports true
    root_id := switch_id
    dist_from_root := 0
    root_port := -1
    closest_switch := switch_id
    weight := weight }

/-- `Switch.add_neighbor`: append the neighbor's id to the port's list. -/
def Switch.add_neighbor (s : Switch) (neighbor_id : Int) (port_num : Nat) : Switch :=
  { s with neighbors := s.neighbors.set port_num (s.neighbors.getD port_num [] ++ [neighbor_id]) }

/-- `Switch.get_hello_message` (line 89-90). -/
def Switch.get_hello_message (s : Switch) : Msg3 :=
  (s.root_id, s.dist_from_root, s.id)

/-- `Switch.set_hello_parameters` (lines 83-87). -/
def Switch.set_hello_parameters (s : Switch)
    (root_id dist_from_root closest_switch root_port : Int) : Switch :=
  { s with
    root_id := root_id
    dist_from_root := dist_from_root
    closest_switch := closest_switch
    root_port := root_port }

/-- `Switch.reset_hello_parameters` (lines 67-68). -/
def Switch.reset_hello_parameters (s : Switch) : Switch :=
  s.set_hello_parameters s.id 0 s.id (-1)

/-- `Switch.update_hello_parameters_by_neighbors` (lines 70-81): empty gathered
list resets; otherwise compare the gathered minimum with the reconstructed
previous-round minimum and either reset or adopt. -/
def Switch.update_hello_parameters_by_neighbors (s : Switch) (hello_messages : List Msg4) : Switch :=
  match hello_messages with
  | [] => s.reset_hello_parameters
  | m :: ms =>
    let last_min_message : Msg4 := (s.root_id, s.dist_from_root - s.weight, s.closest_switch, s.root_port)
    let min_message := pyMin4 m ms
    if lt4 last_min_message min_message then
      s.reset_hello_parameters
    else
      s.set_hello_parameters min_message.1 (min_message.2.1 + s.weight)
        min_message.2.2.1 min_message.2.2.2

/-- The subset of gathered messages that arrived on `port_num`, with the
arrival-port tag dropped (line 94 of the source). -/
def portMessages (hello_messages : List Msg4) (port_num : Nat) : List Msg3 :=
  hello_messages.filterMap (fun m =>
    if m.2.2.2 = (port_num : Int) then some (m.1, m.2.1, m.2.2.1) else none)

/-- `Switch.update_port_status` (lines 101-112): forwarding iff this is the
root port or the minimum of (port messages plus own message) carries this
switch's id as sender. -/
def Switch.update_port_status (s : Switch) (port_num : Nat) (port_hello_messages : List Msg3) : Switch :=
  let is_it_my_root_port : Bool := decide ((port_num : Int) = s.root_port)
  let my_message := s.get_hello_message
  let min_message : Msg3 :=
    match port_hello_messages ++ [my_message] with
    | [] => my_message
    | x :: xs => pyMin3 x xs
  let im_the_best_supplier : Bool := decide (min_message.2.2 = s.id)
  { s with pots_status := s.pots_status.set port_num (is_it_my_root_port || im_the_best_supplier) }

/-- The per-port loop of `Switch.update_ports_status` (lines 93-95), before the
lone-forwarding-port rule. -/
def Switch.update_ports_loop (s : Switch) (hello_messages : List Msg4) : Switch :=
  (List.range s.num_of_ports).foldl
    (fun acc port_num => acc.update_port_status port_num (portMessages hello_messages port_num))
    s

/-- Python's `l[l.index(True)] = False`: set the first `true` entry to `false`. -/
def setFirstTrueFalse : List Bool → List Bool
  | [] => []
  | true :: rest => false :: rest
  | false :: rest => false :: setFirstTrueFalse rest

/-- `Switch.update_ports_status` (lines 92-99): decide every port, then apply
the lone-forwarding-port rule. -/
def Switch.update_ports_status (s : Switch) (hello_messages : List Msg4) : Switch :=
  let s1 := s.update_ports_loop hello_messages
  if s1.pots_status.count true = 1 then
    { s1 with pots_status := setFirstTrueFalse s1.pots_status }
  else
    s1

/-- The forwarding decision `update_port_status` stores for `port_num`:
root port, or best supplier of the segment (minimum sender id equals own id). -/
def portDecision (s : Switch) (hello_messages : List Msg4) (port_num : Nat) : Bool :=
  let my_message := s.get_hello_message
  let min_message : Msg3 :=
    match portMessages hello_messages port_num ++ [my_message] with
    | [] => my_message
    | x :: xs => pyMin3 x xs
  decide ((port_num : Int) = s.root_port) || decide (min_message.2.2 = s.id)

/-- The fold underlying `Switch.update_ports_loop`, over an arbitrary list of
port numbers (proof convenience). -/
def updLoop (hello_messages : List Msg4) (L : List Nat) (acc : Switch) : Switch :=
  L.foldl (fun a port_num => a.update_port_status port_num (portMessages hello_messages port_num)) acc

/-- The gather loop of `Switch.run_sycl` (lines 57-62): for every port in
order, for every neighbor on that port in order, read the neighbor's current
hello message and tag it with the arrival port. `lookup` resolves a neighbor
id to its current state (the source holds live object references; the
embedding resolves ids against the current network state instead). -/
def Switch.gather (lookup : Int → Option Switch) (s : Switch) : List Msg4 :=
  (List.range s.num_of_ports).flatMap (fun port_num =>
    (s.neighbors.getD port_num []).filterMap (fun nid =>
      (lookup nid).map (fun n => (n.root_id, n.dist_from_root, n.id, (port_num : Int)))))

/-- `Switch.run_sycl` (lines 56-65): gather, adopt belief, decide ports,
all on the same gathered list. -/
def Switch.run_sycl (lookup : Int → Option Switch) (s : Switch) : Switch :=
  let hello_messages := s.gather lookup
  let s1 := s.update_hello_parameters_by_neighbors hello_messages
  s1.update_ports_status hello_messages

/-- The topology: `Network.switches` is a Python dict id -> Switch with unique
keys and significant insertion order, embedded as an association list. -/
structure Network where
  switches : List (Int × Switch)
deriving DecidableEq

/-- Resolve an id in an association list (first matching key). -/
def lookupList (l : List (Int × Switch)) (i : Int) : Option Switch :=
  (l.find? (fun p => decide (p.1 = i))).map Prod.snd

/-- Python's `id in self.switches`. -/
def Network.containsId (net : Network) (i : Int) : Bool :=
  net.switches.any (fun p => decide (p.1 = i))

/-- Python's `self.switches[id]` read. -/
def Network.lookup (net : Network) (i : Int) : Option Switch :=
  lookupList net.switches i

/-- `Network.add_switch` (lines 26-29): error on a duplicate id, otherwise
append a freshly initialized switch (dict insertion appends). -/
def Network.add_switch (net : Network) (switch_id : Int) (num_of_ports : Nat) (weight : Int) :
    Except NetError Network :=
  if net.containsId switch_id then
    Except.error NetError.DuplicateId
  else
    Except.ok ⟨net.switches ++ [(switch_id, Switch.init switch_id num_of_ports weight)]⟩

/-- Apply `f` to the switch stored under key `i` (Python mutates the object
referenced by `self.switches[i]`; keys are unique in every reachable state). -/
def Network.modifySwitch (net : Network) (i : Int) (f : Switch → Switch) : Network :=
  ⟨net.switches.map (fun p => if p.1 = i then (p.1, f p.2) else p)⟩

/-- `Network.add_connection` (lines 16-18): both endpoint switches learn each
other, each on its own port. -/
def Network.add_connection (net : Network) (switch_id_1 : Int) (port1 : Nat)
    (switch_id_2 : Int) (port2 : Nat) : Network :=
  (net.modifySwitch switch_id_1 (fun s => s.add_neighbor switch_id_2 port1)).modifySwitch
    switch_id_2 (fun s => s.add_neighbor switch_id_1 port2)

/-- Models `itertools.permutations(l, 2)`: all ordered pairs of elements at
distinct positions, in Python's iteration order. Distinctness by position
coincides with distinctness by value on the duplicate-free endpoint groups the
specification's connect operation takes. -/
def perms2 {α : Type} [DecidableEq α] (l : List α) : List (α × α) :=
  l.flatMap (fun x => (l.filter (fun y => decide (y ≠ x))).map (fun y => (x, y)))

/-- `Network.add_connections` (lines 10-14): for every connection group, run
`add_connection` on every ordered pair of distinct endpoints. The Python dict
lookups raise `KeyError` for an absent id; the claims only concern groups whose
ids are all present, where `modifySwitch` agrees with the source. -/
def Network.add_connections (net : Network) (connections : List (List (Int × Nat))) : Network :=
  connections.foldl
    (fun acc connection =>
      (perms2 connection).foldl
        (fun acc2 pr => acc2.add_connection pr.1.1 pr.1.2 pr.2.1 pr.2.2)
        acc)
    net

/-- The pruning body of `Network.remove_switch` (lines 21-23): drop every
neighbor entry equal to `switch_id`, on every port. -/
def Switch.pruneNeighbors (s : Switch) (switch_id : Int) : Switch :=
  { s with neighbors := s.neighbors.map (fun lst => lst.filter (fun nid => decide (nid ≠ switch_id))) }

/-- `Network.remove_switch` (lines 20-24): prune the id from every switch's
neighbor lists, then delete the entry; Python's trailing `del` raises
`KeyError` when the id is absent, after the (then ineffective) pruning loop. -/
def Network.remove_switch (net : Network) (switch_id : Int) : Network × Option NetError :=
  let pruned : Network := ⟨net.switches.map (fun p => (p.1, p.2.pruneNeighbors switch_id))⟩
  if pruned.containsId switch_id then
    (⟨pruned.switches.filter (fun p => decide (p.1 ≠ switch_id))⟩, none)
  else
    (pruned, some NetError.UnknownSwitch)

/-- One step of the round loop: run `run_sycl` on the switch at position `k`,
reading neighbors from the current (partly updated) collection, and store the
result back in place. -/
def stepAt (l : List (Int × Switch)) (k : Nat) : List (Int × Switch) :=
  match l.get? k with
  | none => l
  | some (i, s) => l.set k (i, s.run_sycl (lookupList l))

/-- `Network.run_sycl` (lines 31-33): update every switch once, in insertion
order, each reading the live current state (Gauss-Seidel style). -/
def Network.run_sycl (net : Network) : Network :=
  ⟨(List.range net.switches.length).foldl stepAt net.switches⟩

/-- Total number of neighbor entries stored by one switch. -/
def entrySum (s : Switch) : Nat :=
  (s.neighbors.map List.length).sum

/-- Total number of directed neighbor entries stored in the topology. -/
def Network.totalNeighborEntries (net : Network) : Nat :=
  (net.switches.map (fun p => entrySum p.2)).sum

/-- Validity of one `(switchId, port)` endpoint against a topology: some
stored switch carries that id and the port indexes one of its neighbor
lists (the situation in which Python's `add_connection` neither raises
`KeyError` nor `IndexError`). -/
def EPvalid (net : Network) (e : Int × Nat) : Prop :=
  ∃ pr ∈ net.switches, pr.1 = e.1 ∧ e.2 < pr.2.neighbors.length

instance (net : Network) (e : Int × Nat) : Decidable (EPvalid net e) :=
  decidable_of_iff (∃ pr ∈ net.switches, pr.1 = e.1 ∧ e.2 < pr.2.neighbors.length) Iff.rfl

/-- Scenario A of the specification: two one-port switches of weight 1, added
in order 0 then 1, connected port0-to-port0, built through the construction
API. -/
def scenarioA : Except NetError Network := do
  let n0 : Network := ⟨[]⟩
  let n1 ← n0.add_switch 0 1 1
  let n2 ← n1.add_switch 1 1 1
  pure (n2.add_connections [[(0, 0), (1, 0)]])

/-- Two fresh one-port switches, keys 0 and 1: the base topology of the C2
counterexample and witness. -/
def netC2 : Network :=
  ⟨[(0, Switch.init 0 1 1), (1, Switch.init 1 1 1)]⟩

/-- Two one-port switches that list each other as neighbors on port 0. -/
def netW8 : Network :=
  ⟨[(0, { Switch.init 0 1 1 with neighbors := [[1]] }),
    (1, { Switch.init 1 1 1 with neighbors := [[0]] })]⟩

/-- A single self-connected-free switch topology for the removal error witness. -/
def netW9 : Network :=
  ⟨[(0, { Switch.init 0 2 1 with neighbors := [[], []] })]⟩

/-- A topology built through the construction API in which switch 5 is
connected to itself: the connect group `[(5,0),(5,1)]` joins two distinct
endpoints of the same switch, making 5 its own neighbor on ports 0 and 1;
the second group ties port 2 to the one-port switch 2. -/
def scenarioC4 : Except NetError Network := do
  let n1 ← (⟨[]⟩ : Network).add_switch 5 3 1
  let n2 ← n1.add_switch 2 1 1
  pure (n2.add_connections [[(5, 0), (5, 1)], [(5, 2), (2, 0)]])

/-- The state switch 5 of `scenarioC4` holds after one round followed by the
removal of switch 2: it still believes in root 2 at distance 1 through
root port 2, and its self-loop neighbor entries survive on ports 0 and 1. -/
def sC4 : Switch :=
  { id := 5, num_of_ports := 3, neighbors := [[5, 5], [5, 5], []],
    pots_status := [true, true, true],
    root_id := 2, dist_from_root := 1, root_port := 2, closest_switch := 2, weight := 1 }

/-- The list switch 5 gathers in the round after the removal: its own stale
advertisement `(2, 1, 5)`, read twice on each self-looped port. -/
def msgsC4 : List Msg4 := Switch.gather (lookupList [(5, sC4)]) sC4

/-- Switch 1 of scenario A after its belief update of round one: subordinate
to root 0 through root port 0, its single port still forwarding. -/
def sC5 : Switch :=
  { id := 1, num_of_ports := 1, neighbors := [[0, 0]], pots_status := [true],
    root_id := 0, dist_from_root := 1, root_port := 0, closest_switch := 0, weight := 1 }

/-- A single isolated one-port switch topology. -/
def netW7 : Network :=
  ⟨[(3, Switch.init 3 1 1)]⟩

/-! ## Order lemmas for the lexicographic tuple comparisons -/

lemma neFalse {b : Bool} (h : ¬ b = false) : b = true := by
  cases b
  · exact absurd rfl h
  · rfl

lemma lt4_irrefl (a : Msg4) : lt4 a a = false := by
  obtain ⟨a1, a2, a3, a4⟩ := a
  simp [lt4, lt3]

lemma lt4_trans {a b c : Msg4} (h1 : lt4 a b = true) (h2 : lt4 b c = true) :
    lt4 a c = true := by
  obtain ⟨a1, a2, a3, a4⟩ := a
  obtain ⟨b1, b2, b3, b4⟩ := b
  obtain ⟨c1, c2, c3, c4⟩ := c
  simp [lt4, lt3] at *
  omega

lemma lt4_le_lt_trans {a b c : Msg4} (h1 : lt4 b a = false) (h2 : lt4 b c = true) :
    lt4 a c = true := by
  obtain ⟨a1, a2, a3, a4⟩ := a
  obtain ⟨b1, b2, b3, b4⟩ := b
  obtain ⟨c1, c2, c3, c4⟩ := c
  simp [lt4, lt3] at *
  omega

lemma lt4_total {a b : Msg4} (h1 : lt4 a b = false) (h2 : lt4 b a = false) : a = b := by
  obtain ⟨a1, a2, a3, a4⟩ := a
  obtain ⟨b1, b2, b3, b4⟩ := b
  simp [lt4, lt3, Prod.ext_iff] at *
  omega

lemma lt3_irrefl (a : Msg3) : lt3 a a = false := by
  obtain ⟨a1, a2, a3⟩ := a
  simp [lt3]

lemma lt3_trans {a b c : Msg3} (h1 : lt3 a b = true) (h2 : lt3 b c = true) :
    lt3 a c = true := by
  obtain ⟨a1, a2, a3⟩ := a
  obtain ⟨b1, b2, b3⟩ := b
  obtain ⟨c1, c2, c3⟩ := c
  simp [lt3] at *
  omega

lemma lt3_le_lt_trans {a b c : Msg3} (h1 : lt3 b a = false) (h2 : lt3 b c = true) :
    lt3 a c = true := by
  obtain ⟨a1, a2, a3⟩ := a
  obtain ⟨b1, b2, b3⟩ := b
  obtain ⟨c1, c2, c3⟩ := c
  simp [lt3] at *
  omega

lemma lt3_total {a b : Msg3} (h1 : lt3 a b = false) (h2 : lt3 b a = false) : a = b := by
  obtain ⟨a1, a2, a3⟩ := a
  obtain ⟨b1, b2, b3⟩ := b
  simp [lt3, Prod.ext_iff] at *
  omega

/-! ## Properties of the Python-style minimum folds -/

lemma pyMin4_cons (x y : Msg4) (ys : List Msg4) :
    pyMin4 x (y :: ys) = pyMin4 (if lt4 y x then y else x) ys := rfl

lemma pyMin4_mem (x : Msg4) (xs : List Msg4) : pyMin4 x xs ∈ x :: xs := by
  induction xs generalizing x with
  | nil => simp [pyMin4]
  | cons y ys ih =>
    by_cases hc : lt4 y x = true
    · rw [pyMin4_cons, if_pos hc]
      exact List.mem_cons_of_mem x (ih y)
    · rw [pyMin4_cons, if_neg hc]
      rcases List.mem_cons.mp (ih x) with h | h
      · rw [h]
        exact List.mem_cons_self x _
      · exact List.mem_cons_of_mem x (List.mem_cons_of_mem y h)

lemma pyMin4_minimal (x : Msg4) (xs : List Msg4) :
    ∀ m ∈ x :: xs, lt4 m (pyMin4 x xs) = false := by
  induction xs generalizing x with
  | nil =>
    intro m hm
    rw [List.mem_singleton] at hm
    subst hm
    exact lt4_irrefl m
  | cons y ys ih =>
    intro m hm
    rw [pyMin4_cons]
    by_cases hc : lt4 y x = true
    · rw [if_pos hc]
      rcases List.mem_cons.mp hm with h | h
      · subst h
        have hy := ih y y (List.mem_cons_self y ys)
        by_contra hx
        have hx' := neFalse hx
        have := lt4_trans hc hx'
        rw [hy] at this
        simp at this
      · exact ih y m h
    · rw [if_neg hc]
      have hc' : lt4 y x = false := by
        cases h' : lt4 y x
        · rfl
        · exact absurd h' hc
      rcases List.mem_cons.mp hm with h | h
      · subst h
        exact ih m m (List.mem_cons_self m ys)
      · rcases List.mem_cons.mp h with h2 | h2
        · subst h2
          have hx := ih x x (List.mem_cons_self x ys)
          by_contra hy
          have hy' := neFalse hy
          have := lt4_le_lt_trans hc' hy'
          rw [hx] at this
          simp at this
        · exact ih x m (List.mem_cons_of_mem x h2)

lemma pyMin4_eq_of_minimal (x : Msg4) (xs : List Msg4) (m : Msg4)
    (hm : m ∈ x :: xs) (hmin : ∀ n ∈ x :: xs, lt4 n m = false) :
    pyMin4 x xs = m := by
  have h1 := hmin (pyMin4 x xs) (pyMin4_mem x xs)
  have h2 := pyMin4_minimal x xs m hm
  exact lt4_total h1 h2

lemma pyMin3_cons (x y : Msg3) (ys : List Msg3) :
    pyMin3 x (y :: ys) = pyMin3 (if lt3 y x then y else x) ys := rfl

lemma pyMin3_mem (x : Msg3) (xs : List Msg3) : pyMin3 x xs ∈ x :: xs := by
  induction xs generalizing x with
  | nil => simp [pyMin3]
  | cons y ys ih =>
    by_cases hc : lt3 y x = true
    · rw [pyMin3_cons, if_pos hc]
      exact List.mem_cons_of_mem x (ih y)
    · rw [pyMin3_cons, if_neg hc]
      rcases List.mem_cons.mp (ih x) with h | h
      · rw [h]
        exact List.mem_cons_self x _
      · exact List.mem_cons_of_mem x (List.mem_cons_of_mem y h)

lemma pyMin3_minimal (x : Msg3) (xs : List Msg3) :
    ∀ m ∈ x :: xs, lt3 m (pyMin3 x xs) = false := by
  induction xs generalizing x with
  | nil =>
    intro m hm
    rw [List.mem_singleton] at hm
    subst hm
    exact lt3_irrefl m
  | cons y ys ih =>
    intro m hm
    rw [pyMin3_cons]
    by_cases hc : lt3 y x = true
    · rw [if_pos hc]
      rcases List.mem_cons.mp hm with h | h
      · subst h
        have hy := ih y y (List.mem_cons_self y ys)
        by_contra hx
        have hx' := neFalse hx
        have := lt3_trans hc hx'
        rw [hy] at this
        simp at this
      · exact ih y m h
    · rw [if_neg hc]
      have hc' : lt3 y x = false := by
        cases h' : lt3 y x
        · rfl
        · exact absurd h' hc
      rcases List.mem_cons.mp hm with h | h
      · subst h
        exact ih m m (List.mem_cons_self m ys)
      · rcases List.mem_cons.mp h with h2 | h2
        · subst h2
          have hx := ih x x (List.mem_cons_self x ys)
          by_contra hy
          have hy' := neFalse hy
          have := lt3_le_lt_trans hc' hy'
          rw [hx] at this
          simp at this
        · exact ih x m (List.mem_cons_of_mem x h2)

lemma pyMin3_eq_of_minimal (x : Msg3) (xs : List Msg3) (m : Msg3)
    (hm : m ∈ x :: xs) (hmin : ∀ n ∈ x :: xs, lt3 n m = false) :
    pyMin3 x xs = m := by
  have h1 := hmin (pyMin3 x xs) (pyMin3_mem x xs)
  have h2 := pyMin3_minimal x xs m hm
  exact lt3_total h1 h2

/-! ## Helper lemmas about the port-status phase -/

lemma setFirstTrueFalse_get (l : List Bool) (h : l.count true = 1) :
    ∀ j : Nat, (setFirstTrueFalse l).get? j =
      if l.get? j = some true then some false else l.get? j := by
  induction l with
  | nil =>
    intro j
    simp [setFirstTrueFalse]
  | cons b t ih =>
    cases b with
    | true =>
      have hc : t.count true = 0 := by
        rw [List.count_cons_self] at h
        omega
      have hnt : ∀ j : Nat, ¬ t.get? j = some true := by
        intro j hj
        have hmem : true ∈ t := List.get?_mem hj
        rw [List.count_eq_zero] at hc
        exact hc hmem
      intro j
      cases j with
      | zero =>
        simp [setFirstTrueFalse]
      | succ n =>
        rw [setFirstTrueFalse]
        show t.get? n = if t.get? n = some true then some false else t.get? n
        rw [if_neg (hnt n)]
    | false =>
      have hc : t.count true = 1 := by
        rw [List.count_cons_of_ne (by decide)] at h
        exact h
      intro j
      cases j with
      | zero =>
        rw [setFirstTrueFalse]
        show some false = if (false :: t).get? 0 = some true then some false else (false :: t).get? 0
        simp
      | succ n =>
        rw [setFirstTrueFalse]
        show (setFirstTrueFalse t).get? n = if t.get? n = some true then some false else t.get? n
        exact ih hc n

lemma count_true_setFirstTrueFalse (l : List Bool) (h : l.count true = 1) :
    (setFirstTrueFalse l).count true = 0 := by
  induction l with
  | nil => simp at h
  | cons b t ih =>
    cases b
    · rw [setFirstTrueFalse]
      simp [List.count_cons] at h ⊢
      exact ih h
    · rw [setFirstTrueFalse]
      simp [List.count_cons] at h ⊢
      omega

/-! ## Claim theorems -/

/-- C1: Scenario A. In a topology of two one-port switches of weight 1,
connected port0-to-port0 and added in order 0 then 1, one round
(processing switches in addition order) ends with switch 0 self-rooted
(`root_id = 0`, `dist_from_root = 0`, `closest_switch = 0`, `root_port = -1`,
the "none" sentinel) and switch 1 subordinate (`root_id = 0`,
`dist_from_root = 1`, `closest_switch = 0`, `root_port = 0`), and both
switches' single port blocking (`pots_status = [false]`). -/
theorem C1_scenarioA_round1 :
    scenarioA.map Network.run_sycl =
      Except.ok
        ⟨[(0, { id := 0, num_of_ports := 1, neighbors := [[1, 1]], pots_status := [false],
                root_id := 0, dist_from_root := 0, root_port := -1, closest_switch := 0,
                weight := 1 }),
          (1, { id := 1, num_of_ports := 1, neighbors := [[0, 0]], pots_status := [false],
                root_id := 0, dist_from_root := 1, root_port := 0, closest_switch := 0,
                weight := 1 })]⟩ := by
  rfl

/-- C2 counterexample: connecting the group `[(0,0),(1,0)]` of k = 2 distinct
endpoints adds 4 directed neighbor entries, not k·(k−1) = 2, and switch 0
learns endpoint 1 twice on port 0 (so entries are added more than once). -/
theorem C2_fanout_counterexample :
    (netC2.add_connections [[(0, 0), (1, 0)]]).totalNeighborEntries = 4 ∧
    netC2.totalNeighborEntries = 0 ∧
    ¬ ((netC2.add_connections [[(0, 0), (1, 0)]]).totalNeighborEntries =
        netC2.totalNeighborEntries + 2 * (2 - 1)) ∧
    ((netC2.add_connections [[(0, 0), (1, 0)]]).lookup 0).map Switch.neighbors =
      some [[1, 1]] := by
  decide

/-- C3: for a non-empty gathered list with minimum `m` (under the 4-field
lexicographic order), the belief update compares `m` against
`lastMin = (root_id, dist_from_root − weight, closest_switch, root_port)`;
if `m` is strictly greater it resets to the self-rooted state
(`root_id = id`, distance 0, `closest_switch = id`, `root_port = -1`),
otherwise it adopts `root_id = m.rootId`,
`dist_from_root = m.distance + weight`, `closest_switch = m.senderId`,
`root_port = m.arrivalPort`. -/
theorem C3_belief_update (s : Switch) (hello_messages : List Msg4) (m : Msg4)
    (hm : m ∈ hello_messages)
    (hmin : ∀ n ∈ hello_messages, lt4 n m = false) :
    (lt4 (s.root_id, s.dist_from_root - s.weight, s.closest_switch, s.root_port) m = true →
       (s.update_hello_parameters_by_neighbors hello_messages).root_id = s.id ∧
       (s.update_hello_parameters_by_neighbors hello_messages).dist_from_root = 0 ∧
       (s.update_hello_parameters_by_neighbors hello_messages).closest_switch = s.id ∧
       (s.update_hello_parameters_by_neighbors hello_messages).root_port = -1) ∧
    (lt4 (s.root_id, s.dist_from_root - s.weight, s.closest_switch, s.root_port) m = false →
       (s.update_hello_parameters_by_neighbors hello_messages).root_id = m.1 ∧
       (s.update_hello_parameters_by_neighbors hello_messages).dist_from_root = m.2.1 + s.weight ∧
       (s.update_hello_parameters_by_neighbors hello_messages).closest_switch = m.2.2.1 ∧
       (s.update_hello_parameters_by_neighbors hello_messages).root_port = m.2.2.2) := by
  cases hello_messages with
  | nil => simp at hm
  | cons x xs =>
    have hpm : pyMin4 x xs = m := pyMin4_eq_of_minimal x xs m hm hmin
    constructor
    · intro hc
      simp [Switch.update_hello_parameters_by_neighbors, hpm, hc,
        Switch.reset_hello_parameters, Switch.set_hello_parameters]
    · intro hc
      simp [Switch.update_hello_parameters_by_neighbors, hpm, hc,
        Switch.reset_hello_parameters, Switch.set_hello_parameters]

/-- C3 witness: a concrete switch (id 9, weight 1, belief `(9, 0, 9, -1)`)
with gathered list `[(0, 2, 5, 0)]` adopts root 0 at distance 3 via sender 5
on port 0. -/
theorem C3_belief_update_witness :
    ((Switch.init 9 1 1).update_hello_parameters_by_neighbors [(0, 2, 5, 0)]).root_id = 0 ∧
    ((Switch.init 9 1 1).update_hello_parameters_by_neighbors [(0, 2, 5, 0)]).dist_from_root = 3 ∧
    ((Switch.init 9 1 1).update_hello_parameters_by_neighbors [(0, 2, 5, 0)]).closest_switch = 5 ∧
    ((Switch.init 9 1 1).update_hello_parameters_by_neighbors [(0, 2, 5, 0)]).root_port = 0 :=
  (C3_belief_update (Switch.init 9 1 1) [(0, 2, 5, 0)] (0, 2, 5, 0)
    (by decide) (by decide)).2 (by decide)

/-- C5: if the per-port decisions of one update leave exactly one forwarding
port, the full port-status phase forces that single forwarding port to
blocking while every other port keeps its decided (blocking) state, so the
switch ends the update with zero forwarding ports; no assumption about which
port that is (in particular it may be the root port). -/
theorem C5_lone_forwarding_port (s : Switch) (hello_messages : List Msg4)
    (h : (s.update_ports_loop hello_messages).pots_status.count true = 1) :
    (s.update_ports_status hello_messages).pots_status.count true = 0 ∧
    ∀ j : Nat, (s.update_ports_status hello_messages).pots_status.get? j =
      if (s.update_ports_loop hello_messages).pots_status.get? j = some true then some false
      else (s.update_ports_loop hello_messages).pots_status.get? j := by
  have hpots : (s.update_ports_status hello_messages).pots_status =
      setFirstTrueFalse ((s.update_ports_loop hello_messages).pots_status) := by
    rw [Switch.update_ports_status]
    simp only [h, if_pos]
  constructor
  · rw [hpots]
    exact count_true_setFirstTrueFalse _ h
  · intro j
    rw [hpots]
    exact setFirstTrueFalse_get _ h j

/-- C5 witness: switch 1 of scenario A right after its belief update; its
single port is the root port (`root_port = 0`) and forwarding after the
per-port decisions, and the lone-forwarding-port rule forces that very port —
the root port — to blocking, leaving zero forwarding ports. -/
theorem C5_lone_forwarding_port_witness :
    (sC5.update_ports_status [(0, 0, 0, 0), (0, 0, 0, 0)]).pots_status.count true = 0 ∧
    (sC5.update_ports_status [(0, 0, 0, 0), (0, 0, 0, 0)]).pots_status.get? 0 = some false :=
  ⟨(C5_lone_forwarding_port sC5 [(0, 0, 0, 0), (0, 0, 0, 0)] (by decide)).1,
   ((C5_lone_forwarding_port sC5 [(0, 0, 0, 0), (0, 0, 0, 0)] (by decide)).2 0).trans
     (by decide)⟩

/-- C6: the round operation is a deterministic function of the topology state,
so once one round leaves every switch's state unchanged, every number of
further rounds leaves it unchanged. -/
theorem C6_fixed_point (net : Network) (h : net.run_sycl = net) :
    ∀ k : Nat, Network.run_sycl^[k] net = net := by
  intro k
  induction k with
  | zero => rfl
  | succ n ih => rw [Function.iterate_succ_apply, h, ih]

/-- C6 witness: the empty topology is a fixed point of one round, and five
further rounds leave it unchanged. -/
theorem C6_fixed_point_witness : Network.run_sycl^[5] (⟨[]⟩ : Network) = ⟨[]⟩ :=
  C6_fixed_point ⟨[]⟩ rfl 5

/-! ## Generic lemmas about folds over `List.range` of index-local updates -/

lemma foldl_range_focus {σ γ : Type} (F : σ → Nat → σ) (obs : σ → Option γ) (k : Nat)
    (hpres : ∀ t j, j ≠ k → obs (F t j) = obs t) :
    ∀ n, k < n → ∀ s, obs ((List.range n).foldl F s) = obs (F ((List.range k).foldl F s) k) := by
  intro n
  induction n with
  | zero => intro h s; exact absurd h (Nat.not_lt_zero k)
  | succ n ih =>
    intro h s
    rw [List.range_succ, List.foldl_append]
    by_cases hk : k = n
    · subst hk
      simp [List.foldl]
    · have hk' : k < n := by omega
      simp only [List.foldl_cons, List.foldl_nil]
      rw [hpres _ n (fun hh => hk hh.symm)]
      exact ih hk' s

lemma foldl_notmem {σ γ : Type} (F : σ → Nat → σ) (obs : σ → Option γ) (k : Nat)
    (hpres : ∀ t j, j ≠ k → obs (F t j) = obs t) :
    ∀ (L : List Nat), k ∉ L → ∀ s, obs (L.foldl F s) = obs s := by
  intro L
  induction L with
  | nil => intro _ s; rfl
  | cons j t ih =>
    intro hmem s
    have hj : j ≠ k := by
      intro hh
      exact hmem (by rw [hh]; exact List.mem_cons_self k t)
    rw [List.foldl_cons, ih (fun hh => hmem (List.mem_cons_of_mem j hh)) (F s j),
      hpres s j hj]

/-! ## Structural lemmas about the port-status phase -/

lemma update_port_status_eq_set (s : Switch) (hello_messages : List Msg4) (p : Nat) :
    s.update_port_status p (portMessages hello_messages p) =
      { s with pots_status := s.pots_status.set p (portDecision s hello_messages p) } := rfl

lemma update_ports_loop_eq (s : Switch) (hello_messages : List Msg4) :
    s.update_ports_loop hello_messages = updLoop hello_messages (List.range s.num_of_ports) s := rfl

lemma updLoop_pres (hello_messages : List Msg4) (L : List Nat) (acc : Switch) :
    (updLoop hello_messages L acc).root_id = acc.root_id ∧
    (updLoop hello_messages L acc).dist_from_root = acc.dist_from_root ∧
    (updLoop hello_messages L acc).id = acc.id ∧
    (updLoop hello_messages L acc).root_port = acc.root_port ∧
    (updLoop hello_messages L acc).closest_switch = acc.closest_switch ∧
    (updLoop hello_messages L acc).num_of_ports = acc.num_of_ports ∧
    (updLoop hello_messages L acc).weight = acc.weight ∧
    (updLoop hello_messages L acc).neighbors = acc.neighbors ∧
    (updLoop hello_messages L acc).pots_status.length = acc.pots_status.length := by
  induction L generalizing acc with
  | nil => exact ⟨rfl, rfl, rfl, rfl, rfl, rfl, rfl, rfl, rfl⟩
  | cons j t ih =>
    have h := ih (acc.update_port_status j (portMessages hello_messages j))
    have hl : (acc.update_port_status j (portMessages hello_messages j)).pots_status.length =
        acc.pots_status.length := by
      simp [Switch.update_port_status]
    exact ⟨h.1, h.2.1, h.2.2.1, h.2.2.2.1, h.2.2.2.2.1, h.2.2.2.2.2.1, h.2.2.2.2.2.2.1,
      h.2.2.2.2.2.2.2.1, h.2.2.2.2.2.2.2.2.trans hl⟩

lemma portDecision_congr (a b : Switch) (hello_messages : List Msg4) (p : Nat)
    (h1 : a.root_port = b.root_port) (h2 : a.root_id = b.root_id)
    (h3 : a.dist_from_root = b.dist_from_root) (h4 : a.id = b.id) :
    portDecision a hello_messages p = portDecision b hello_messages p := by
  simp only [portDecision, Switch.get_hello_message, h1, h2, h3, h4]

lemma update_ports_loop_get (s : Switch) (hello_messages : List Msg4) (p : Nat)
    (hp : p < s.num_of_ports) (hlen : s.pots_status.length = s.num_of_ports) :
    (s.update_ports_loop hello_messages).pots_status.get? p =
      some (portDecision s hello_messages p) := by
  have hpres : ∀ (t : Switch) j, j ≠ p →
      (t.update_port_status j (portMessages hello_messages j)).pots_status.get? p =
        t.pots_status.get? p := by
    intro t j hj
    rw [update_port_status_eq_set]
    exact List.get?_set_ne _ _ hj
  have hfoc := foldl_range_focus
    (fun (a : Switch) j => a.update_port_status j (portMessages hello_messages j))
    (fun t => t.pots_status.get? p) p hpres s.num_of_ports hp s
  rw [update_ports_loop_eq, updLoop]
  rw [hfoc]
  have hacc := updLoop_pres hello_messages (List.range p) s
  rw [update_port_status_eq_set]
  have hlt : p < ((List.range p).foldl
      (fun a j => a.update_port_status j (portMessages hello_messages j)) s).pots_status.length := by
    have : ((List.range p).foldl
        (fun a j => a.update_port_status j (portMessages hello_messages j)) s).pots_status.length =
        s.pots_status.length := hacc.2.2.2.2.2.2.2.2
    rw [this, hlen]
    exact hp
  rw [List.get?_set_eq_of_lt _ hlt]
  have := portDecision_congr
    ((List.range p).foldl (fun a j => a.update_port_status j (portMessages hello_messages j)) s)
    s hello_messages p hacc.2.2.2.1 hacc.1 hacc.2.1 hacc.2.2.1
  rw [this]

lemma update_ports_status_pres (s : Switch) (hello_messages : List Msg4) :
    (s.update_ports_status hello_messages).root_id = s.root_id ∧
    (s.update_ports_status hello_messages).dist_from_root = s.dist_from_root ∧
    (s.update_ports_status hello_messages).id = s.id ∧
    (s.update_ports_status hello_messages).root_port = s.root_port ∧
    (s.update_ports_status hello_messages).closest_switch = s.closest_switch ∧
    (s.update_ports_status hello_messages).num_of_ports = s.num_of_ports ∧
    (s.update_ports_status hello_messages).weight = s.weight ∧
    (s.update_ports_status hello_messages).neighbors = s.neighbors := by
  have h := updLoop_pres hello_messages (List.range s.num_of_ports) s
  rw [Switch.update_ports_status]
  by_cases hc : (s.update_ports_loop hello_messages).pots_status.count true = 1
  · rw [update_ports_loop_eq] at hc
    simp only [update_ports_loop_eq, hc, if_pos]
    exact ⟨h.1, h.2.1, h.2.2.1, h.2.2.2.1, h.2.2.2.2.1, h.2.2.2.2.2.1, h.2.2.2.2.2.2.1,
      h.2.2.2.2.2.2.2.1⟩
  · rw [update_ports_loop_eq] at hc
    simp only [update_ports_loop_eq, hc, if_neg, ite_false]
    exact ⟨h.1, h.2.1, h.2.2.1, h.2.2.2.1, h.2.2.2.2.1, h.2.2.2.2.2.1, h.2.2.2.2.2.2.1,
      h.2.2.2.2.2.2.2.1⟩

lemma getD_nil_of_all_nil {L : List (List Int)} (h : ∀ x ∈ L, x = ([] : List Int)) :
    ∀ p : Nat, L.getD p [] = [] := by
  induction L with
  | nil => intro p; cases p <;> rfl
  | cons a t ih =>
    intro p
    cases p with
    | zero =>
      rw [List.getD_cons_zero]
      exact h a (List.mem_cons_self a t)
    | succ q =>
      rw [List.getD_cons_succ]
      exact ih (fun x hx => h x (List.mem_cons_of_mem a hx)) q

lemma gather_eq_nil (s : Switch) (f : Int → Option Switch)
    (hiso : ∀ nb ∈ s.neighbors, nb = ([] : List Int)) : s.gather f = [] := by
  rw [Switch.gather, List.flatMap_eq_nil_iff]
  intro p _
  rw [getD_nil_of_all_nil hiso p]
  rfl

lemma update_hello_nil (s : Switch) :
    s.update_hello_parameters_by_neighbors [] = s.reset_hello_parameters := rfl

lemma run_sycl_isolated (s : Switch) (f : Int → Option Switch)
    (hiso : ∀ nb ∈ s.neighbors, nb = ([] : List Int)) :
    s.run_sycl f = (s.reset_hello_parameters).update_ports_status [] := by
  rw [Switch.run_sycl, gather_eq_nil s f hiso, update_hello_nil]

lemma update_hello_cases (s : Switch) (x : Msg4) (xs : List Msg4) :
    s.update_hello_parameters_by_neighbors (x :: xs) = s.reset_hello_parameters ∨
    s.update_hello_parameters_by_neighbors (x :: xs) =
      s.set_hello_parameters (pyMin4 x xs).1 ((pyMin4 x xs).2.1 + s.weight)
        (pyMin4 x xs).2.2.1 (pyMin4 x xs).2.2.2 := by
  by_cases hc : lt4 (s.root_id, s.dist_from_root - s.weight, s.closest_switch, s.root_port)
      (pyMin4 x xs) = true
  · left
    simp [Switch.update_hello_parameters_by_neighbors, hc]
  · right
    simp only [Bool.not_eq_true] at hc
    simp [Switch.update_hello_parameters_by_neighbors, hc]

lemma update_hello_pres (s : Switch) (hello_messages : List Msg4) :
    (s.update_hello_parameters_by_neighbors hello_messages).id = s.id ∧
    (s.update_hello_parameters_by_neighbors hello_messages).num_of_ports = s.num_of_ports ∧
    (s.update_hello_parameters_by_neighbors hello_messages).pots_status = s.pots_status ∧
    (s.update_hello_parameters_by_neighbors hello_messages).neighbors = s.neighbors ∧
    (s.update_hello_parameters_by_neighbors hello_messages).weight = s.weight := by
  cases hello_messages with
  | nil => exact ⟨rfl, rfl, rfl, rfl, rfl⟩
  | cons x xs =>
    rcases update_hello_cases s x xs with h | h <;> rw [h] <;> exact ⟨rfl, rfl, rfl, rfl, rfl⟩

/-! ## The best-supplier condition versus the spec's minimality condition -/

lemma best_supplier_iff (s : Switch) (pm : List Msg3)
    (hsender : ∀ m ∈ pm, m.2.2 ≠ s.id) :
    ((match pm ++ [s.get_hello_message] with
      | [] => s.get_hello_message
      | x :: xs => pyMin3 x xs).2.2 = s.id) ↔
      (∀ m ∈ pm, lt3 m s.get_hello_message = false) := by
  cases pm with
  | nil =>
    simp [pyMin3, Switch.get_hello_message]
  | cons q qs =>
    show ((pyMin3 q (qs ++ [s.get_hello_message])).2.2 = s.id) ↔ _
    constructor
    · intro hmin m hm
      have hmem := pyMin3_mem q (qs ++ [s.get_hello_message])
      have heq : pyMin3 q (qs ++ [s.get_hello_message]) = s.get_hello_message := by
        rcases List.mem_cons.mp hmem with h | h
        · rw [h] at hmin
          exact absurd hmin (hsender q (List.mem_cons_self q qs))
        · rcases List.mem_append.mp h with h2 | h2
          · exact absurd hmin
              (hsender (pyMin3 q (qs ++ [s.get_hello_message])) (List.mem_cons_of_mem q h2))
          · exact List.mem_singleton.mp h2
      have := pyMin3_minimal q (qs ++ [s.get_hello_message]) m
        (by
          rcases List.mem_cons.mp hm with h | h
          · rw [h]
            exact List.mem_cons_self q _
          · exact List.mem_cons_of_mem q (List.mem_append.mpr (Or.inl h)))
      rw [heq] at this
      exact this
    · intro hall
      have heq : pyMin3 q (qs ++ [s.get_hello_message]) = s.get_hello_message := by
        apply pyMin3_eq_of_minimal
        · exact List.mem_cons_of_mem q (List.mem_append.mpr (Or.inr (List.mem_singleton.mpr rfl)))
        · intro n hn
          rcases List.mem_cons.mp hn with h | h
          · rw [h]
            exact hall q (List.mem_cons_self q qs)
          · rcases List.mem_append.mp h with h2 | h2
            · exact hall n (List.mem_cons_of_mem q h2)
            · rw [List.mem_singleton.mp h2]
              exact lt3_irrefl _
      rw [heq]
      rfl

/-- C4 counterexample: a state reached through the construction API — switch 5
self-connected by the group `[(5,0),(5,1)]` of two distinct endpoints, one
round run, then switch 2 removed — in which the next round's port-status phase
(gathered list `msgsC4`, belief updated from it by a reset to `(5,0,5)` with
`root_port = -1`) sets port 0 to forwarding although port 0 is not the updated
root port and the switch's own current hello message `(5,0,5)` is not the
lexicographic minimum of port 0's gathered messages `[(2,1,5),(2,1,5)]`
together with the own message; this refutes the claimed "only if". -/
theorem C4_port_decision_counterexample :
    ((scenarioC4.map Network.run_sycl).map (fun n => (n.remove_switch 2).1)) =
      Except.ok ⟨[(5, sC4)]⟩ ∧
    msgsC4 = [(2, 1, 5, 0), (2, 1, 5, 0), (2, 1, 5, 1), (2, 1, 5, 1)] ∧
    ((sC4.update_hello_parameters_by_neighbors msgsC4).update_ports_loop
        msgsC4).pots_status.get? 0 = some true ∧
    ¬ ((0 : Int) = (sC4.update_hello_parameters_by_neighbors msgsC4).root_port) ∧
    ¬ (∀ m ∈ portMessages msgsC4 0,
        lt3 m (sC4.update_hello_parameters_by_neighbors msgsC4).get_hello_message = false) :=
  ⟨rfl, rfl, by decide, by decide, by decide⟩

/-- C4 amended: the port-status phase, run on the gathered list captured
before the belief update and on the belief just updated from it, sets port `p`
to forwarding iff `p` is the updated root port, or the minimum of that port's
gathered messages (arrival-port tag dropped) together with the own message
carries the switch's own id in its sender field; and whenever no gathered
message on the port carries the switch's own id as sender — every topology
without self-connected switches — that sender condition coincides with the
switch's own current hello message being the lexicographic minimum of that
port's gathered messages together with the own message. -/
theorem C4_amended_port_decision (s : Switch) (hello_messages : List Msg4) (p : Nat)
    (hp : p < s.num_of_ports)
    (hlen : s.pots_status.length = s.num_of_ports) :
    (((s.update_hello_parameters_by_neighbors hello_messages).update_ports_loop
        hello_messages).pots_status.get? p =
      some ((decide ((p : Int) =
            (s.update_hello_parameters_by_neighbors hello_messages).root_port)) ||
        (decide ((match portMessages hello_messages p ++
              [(s.update_hello_parameters_by_neighbors hello_messages).get_hello_message] with
            | [] => (s.update_hello_parameters_by_neighbors hello_messages).get_hello_message
            | x :: xs => pyMin3 x xs).2.2 =
          (s.update_hello_parameters_by_neighbors hello_messages).id)))) ∧
    ((∀ m ∈ portMessages hello_messages p, m.2.2 ≠ s.id) →
      ((s.update_hello_parameters_by_neighbors hello_messages).update_ports_loop
          hello_messages).pots_status.get? p =
        some ((decide ((p : Int) =
              (s.update_hello_parameters_by_neighbors hello_messages).root_port)) ||
          (decide (∀ m ∈ portMessages hello_messages p,
              lt3 m (s.update_hello_parameters_by_neighbors hello_messages).get_hello_message =
                false)))) := by
  have hpre := update_hello_pres s hello_messages
  have hmain := update_ports_loop_get (s.update_hello_parameters_by_neighbors hello_messages)
    hello_messages p (by rw [hpre.2.1]; exact hp) (by rw [hpre.2.2.1, hpre.2.1]; exact hlen)
  have hpd : portDecision (s.update_hello_parameters_by_neighbors hello_messages)
      hello_messages p =
      ((decide ((p : Int) = (s.update_hello_parameters_by_neighbors hello_messages).root_port)) ||
        (decide ((match portMessages hello_messages p ++
              [(s.update_hello_parameters_by_neighbors hello_messages).get_hello_message] with
            | [] => (s.update_hello_parameters_by_neighbors hello_messages).get_hello_message
            | x :: xs => pyMin3 x xs).2.2 =
          (s.update_hello_parameters_by_neighbors hello_messages).id))) := rfl
  constructor
  · exact hmain.trans (congrArg some hpd)
  · intro hsender
    rw [hmain]
    refine congrArg some ?_
    rw [hpd]
    congr 1
    rw [decide_eq_decide]
    exact best_supplier_iff (s.update_hello_parameters_by_neighbors hello_messages)
      (portMessages hello_messages p) (by rw [hpre.1]; exact hsender)

/-- C4 amended witness: a fresh switch 0 with one port, gathered list
`[(5, 0, 7, 0)]` whose sender 7 is not the switch itself; after the belief
update (a reset, since `(5,0,7,0)` exceeds `(0,-1,0,-1)`), the switch's own
message `(0,0,0)` is the minimum on port 0, so the port decision is
forwarding. -/
theorem C4_amended_port_decision_witness :
    (((Switch.init 0 1 1).update_hello_parameters_by_neighbors
        [(5, 0, 7, 0)]).update_ports_loop [(5, 0, 7, 0)]).pots_status.get? 0 =
      some true :=
  (((C4_amended_port_decision (Switch.init 0 1 1) [(5, 0, 7, 0)] 0 (by decide)
      (by decide)).2) (by decide)).trans (by decide)

/-! ## Lemmas about the round loop -/

lemma stepAt_get_ne (l : List (Int × Switch)) (j k : Nat) (h : j ≠ k) :
    (stepAt l j).get? k = l.get? k := by
  cases hg : l[j]? with
  | none => simp [stepAt, hg]
  | some pr =>
    obtain ⟨i, s⟩ := pr
    simp [stepAt, hg, List.getElem?_set_ne h]

lemma stepAt_length (l : List (Int × Switch)) (j : Nat) :
    (stepAt l j).length = l.length := by
  cases hg : l[j]? with
  | none => simp [stepAt, hg]
  | some pr =>
    obtain ⟨i, s⟩ := pr
    simp [stepAt, hg]

lemma foldl_stepAt_length (L : List Nat) (l : List (Int × Switch)) :
    (L.foldl stepAt l).length = l.length := by
  induction L generalizing l with
  | nil => rfl
  | cons j t ih => rw [List.foldl_cons, ih, stepAt_length]

/-- C7: a switch whose neighbor lists are all empty is, after any round of the
topology it sits in, self-rooted: `root_id = id`, `dist_from_root = 0`,
`closest_switch = id` (the upstream switch) and `root_port = -1` (the "none"
sentinel). -/
theorem C7_isolated_switch (net : Network) (k : Nat) (i : Int) (s : Switch)
    (hk : net.switches.get? k = some (i, s))
    (hiso : ∀ nb ∈ s.neighbors, nb = ([] : List Int)) :
    ∃ s2, net.run_sycl.switches.get? k = some (i, s2) ∧
      s2.root_id = s.id ∧ s2.dist_from_root = 0 ∧ s2.closest_switch = s.id ∧
      s2.root_port = -1 := by
  have hklt : k < net.switches.length := by
    rcases List.get?_eq_some.mp hk with ⟨h, _⟩
    exact h
  have hpres : ∀ (t : List (Int × Switch)) j, j ≠ k →
      (fun t => t.get? k) (stepAt t j) = (fun t => t.get? k) t :=
    fun t j hj => stepAt_get_ne t j k hj
  have hfoc := foldl_range_focus stepAt (fun t => t.get? k) k hpres
    net.switches.length hklt net.switches
  have hpre : ((List.range k).foldl stepAt net.switches).get? k = some (i, s) := by
    have := foldl_notmem stepAt (fun t => t.get? k) k hpres (List.range k)
      (by simp [List.mem_range]) net.switches
    rw [this]
    exact hk
  have hlen : ((List.range k).foldl stepAt net.switches).length = net.switches.length :=
    foldl_stepAt_length _ _
  have hrun : net.run_sycl.switches = (List.range net.switches.length).foldl stepAt net.switches :=
    rfl
  have hfields := update_ports_status_pres s.reset_hello_parameters []
  refine ⟨s.run_sycl (lookupList ((List.range k).foldl stepAt net.switches)), ?_, ?_, ?_, ?_, ?_⟩
  · rw [hrun, hfoc]
    simp only [stepAt, hpre]
    exact List.get?_set_eq_of_lt _ (by rw [hlen]; exact hklt)
  · rw [run_sycl_isolated s _ hiso]
    exact hfields.1
  · rw [run_sycl_isolated s _ hiso]
    exact hfields.2.1
  · rw [run_sycl_isolated s _ hiso]
    exact hfields.2.2.2.2.1
  · rw [run_sycl_isolated s _ hiso]
    exact hfields.2.2.2.1

/-- C7 witness: a one-switch topology whose switch (id 3) has an empty
neighbor list; after one round it is self-rooted. -/
theorem C7_isolated_switch_witness :
    ∃ s2, netW7.run_sycl.switches.get? 0 = some (3, s2) ∧
      s2.root_id = (Switch.init 3 1 1).id ∧ s2.dist_from_root = 0 ∧
      s2.closest_switch = (Switch.init 3 1 1).id ∧ s2.root_port = -1 :=
  C7_isolated_switch netW7 0 3 (Switch.init 3 1 1) (by decide) (by decide)

/-- C10: a switch with no neighbor on any port, after any `run_sycl` call and
regardless of its ports' previous states: with two or more ports every port is
forwarding, and with exactly one port that port is blocking. -/
theorem C10_no_neighbor_ports (f : Int → Option Switch) (s : Switch)
    (hiso : ∀ nb ∈ s.neighbors, nb = ([] : List Int))
    (hlen : s.pots_status.length = s.num_of_ports) :
    (2 ≤ s.num_of_ports → (s.run_sycl f).pots_status = List.replicate s.num_of_ports true) ∧
    (s.num_of_ports = 1 → (s.run_sycl f).pots_status = [false]) := by
  rw [run_sycl_isolated s f hiso]
  have hloop : ((s.reset_hello_parameters).update_ports_loop []).pots_status =
      List.replicate s.num_of_ports true := by
    have h1 : ((s.reset_hello_parameters).update_ports_loop []).pots_status.length =
        s.num_of_ports := by
      rw [update_ports_loop_eq]
      have := (updLoop_pres [] (List.range (s.reset_hello_parameters).num_of_ports)
        s.reset_hello_parameters).2.2.2.2.2.2.2.2
      rw [this]
      exact hlen
    rw [List.ext_get?_iff]
    intro n
    by_cases hn : n < s.num_of_ports
    · rw [update_ports_loop_get s.reset_hello_parameters [] n hn hlen]
      have hpd : portDecision s.reset_hello_parameters [] n = true := by
        simp [portDecision, portMessages, pyMin3, Switch.get_hello_message]
      rw [hpd, List.get?_eq_getElem?]
      simp [List.getElem?_replicate, hn]
    · have e1 : ((s.reset_hello_parameters).update_ports_loop []).pots_status.get? n = none :=
        List.get?_eq_none.mpr (by rw [h1]; omega)
      have e2 : (List.replicate s.num_of_ports true).get? n = none :=
        List.get?_eq_none.mpr (by rw [List.length_replicate]; omega)
      rw [e1, e2]
  have hres : ((s.reset_hello_parameters).update_ports_status []).pots_status =
      if ((s.reset_hello_parameters).update_ports_loop []).pots_status.count true = 1
      then setFirstTrueFalse (((s.reset_hello_parameters).update_ports_loop []).pots_status)
      else ((s.reset_hello_parameters).update_ports_loop []).pots_status := by
    rw [Switch.update_ports_status]
    by_cases hc : ((s.reset_hello_parameters).update_ports_loop []).pots_status.count true = 1
    · simp [hc]
    · simp [hc]
  constructor
  · intro h2
    rw [hres, hloop]
    rw [if_neg (by rw [List.count_replicate_self]; omega)]
  · intro h1
    rw [hres, hloop, h1]
    rw [if_pos (by decide)]
    decide

/-- C10 witness: with no neighbors, a two-port switch ends a round with both
ports forwarding, and a one-port switch ends with its port blocking. -/
theorem C10_no_neighbor_ports_witness :
    ((Switch.init 0 2 1).run_sycl (fun _ => none)).pots_status = [true, true] ∧
    ((Switch.init 0 1 1).run_sycl (fun _ => none)).pots_status = [false] :=
  ⟨((C10_no_neighbor_ports (fun _ => none) (Switch.init 0 2 1) (by decide) (by decide)).1
      (by decide)).trans (by decide),
   (C10_no_neighbor_ports (fun _ => none) (Switch.init 0 1 1) (by decide) (by decide)).2
      (by decide)⟩

/-! ## Lemmas about switch removal -/

lemma prune_containsId (net : Network) (x y : Int) :
    (⟨net.switches.map (fun p => (p.1, p.2.pruneNeighbors x))⟩ : Network).containsId y =
      net.containsId y := by
  simp only [Network.containsId, List.any_map]
  rfl

/-- C8: after removing a contained switch `x`, the removal reports no error
and every remaining switch satisfies: it is not `x`; it descends from a switch
of the original topology with `x` filtered out of every port's neighbor list
(so `x` appears on no port); its port count and number of neighbor lists are
unchanged (empty ports survive as empty ports); and its belief state
(`root_id`, `dist_from_root`, `closest_switch`, `root_port`), weight and
port forwarding vector are unchanged. -/
theorem C8_remove_purges (net : Network) (x : Int) (hx : net.containsId x = true) :
    (net.remove_switch x).2 = none ∧
    ∀ pr ∈ (net.remove_switch x).1.switches, pr.1 ≠ x ∧
      ∃ s0, (pr.1, s0) ∈ net.switches ∧
        (∀ lst ∈ pr.2.neighbors, x ∉ lst) ∧
        pr.2.neighbors.length = s0.neighbors.length ∧
        pr.2.num_of_ports = s0.num_of_ports ∧
        pr.2.root_id = s0.root_id ∧
        pr.2.dist_from_root = s0.dist_from_root ∧
        pr.2.closest_switch = s0.closest_switch ∧
        pr.2.root_port = s0.root_port ∧
        pr.2.weight = s0.weight ∧
        pr.2.pots_status = s0.pots_status := by
  have hcond := prune_containsId net x x
  constructor
  · simp [Network.remove_switch, hcond, hx]
  · intro pr hpr2
    have hres : (net.remove_switch x).1.switches =
        (net.switches.map (fun p => (p.1, p.2.pruneNeighbors x))).filter
          (fun p => decide (p.1 ≠ x)) := by
      simp [Network.remove_switch, hcond, hx]
    rw [hres] at hpr2
    obtain ⟨hmm, hneq⟩ := List.mem_filter.mp hpr2
    obtain ⟨q, hq, hqe⟩ := List.mem_map.mp hmm
    refine ⟨by simpa using hneq, q.2, ?_, ?_, ?_, ?_, ?_, ?_, ?_, ?_, ?_, ?_⟩
    · rw [← hqe]
      exact (by obtain ⟨a, b⟩ := q; exact hq)
    · rw [← hqe]
      intro lst hlst hxin
      obtain ⟨l0, _, hl0⟩ := List.mem_map.mp hlst
      rw [← hl0] at hxin
      have := (List.mem_filter.mp hxin).2
      simp at this
    · rw [← hqe]
      exact List.length_map _ _
    · rw [← hqe]; rfl
    · rw [← hqe]; rfl
    · rw [← hqe]; rfl
    · rw [← hqe]; rfl
    · rw [← hqe]; rfl
    · rw [← hqe]; rfl
    · rw [← hqe]
      rfl

/-- C8 witness: removing switch 1 from a two-switch topology where the
switches list each other succeeds without error. -/
theorem C8_remove_purges_witness : (netW8.remove_switch 1).2 = none :=
  (C8_remove_purges netW8 1 (by decide)).1

/-- C9: `remove_switch` reports `UnknownSwitch` exactly when the id is absent
from the topology (the error result models Python's immediately-raised
`KeyError`), and in that case the topology is observably unchanged — the
pruning pass that runs before the failing deletion removes nothing, because in
a topology whose neighbor entries all reference present switches no entry can
equal the absent id. -/
theorem C9_remove_unknown (net : Network) (x : Int)
    (hclosed : ∀ pr ∈ net.switches, ∀ lst ∈ pr.2.neighbors, ∀ nid ∈ lst,
      net.containsId nid = true) :
    ((net.remove_switch x).2 = some NetError.UnknownSwitch ↔ net.containsId x = false) ∧
    (net.containsId x = false → (net.remove_switch x).1 = net) := by
  have hid : net.containsId x = false →
      net.switches.map (fun p => (p.1, p.2.pruneNeighbors x)) = net.switches := by
    intro h
    have hall : ∀ p ∈ net.switches, (p.1, p.2.pruneNeighbors x) = p := by
      intro p hp
      have hps : p.2.pruneNeighbors x = p.2 := by
        rw [Switch.pruneNeighbors]
        have hnb : p.2.neighbors.map (fun lst => lst.filter (fun nid => decide (nid ≠ x))) =
            p.2.neighbors := by
          have : ∀ lst ∈ p.2.neighbors,
              lst.filter (fun nid => decide (nid ≠ x)) = lst := by
            intro lst hlst
            rw [List.filter_eq_self]
            intro nid hnid
            have hc := hclosed p hp lst hlst nid hnid
            simp only [decide_eq_true_eq]
            intro he
            rw [he, h] at hc
            exact Bool.false_ne_true hc
          calc p.2.neighbors.map (fun lst => lst.filter (fun nid => decide (nid ≠ x)))
              = p.2.neighbors.map id := List.map_congr_left this
            _ = p.2.neighbors := List.map_id _
        rw [hnb]
      obtain ⟨a, b⟩ := p
      rw [hps]
    calc net.switches.map (fun p => (p.1, p.2.pruneNeighbors x))
        = net.switches.map id := List.map_congr_left hall
      _ = net.switches := List.map_id _
  constructor
  · constructor
    · intro h
      by_contra hcc
      have hcx : net.containsId x = true := neFalse hcc
      simp [Network.remove_switch, prune_containsId, hcx] at h
    · intro h
      simp [Network.remove_switch, prune_containsId, h]
  · intro h
    have : (net.remove_switch x).1 =
        ⟨net.switches.map (fun p => (p.1, p.2.pruneNeighbors x))⟩ := by
      simp [Network.remove_switch, prune_containsId, h]
    rw [this, hid h]

/-- C9 witness: removing the absent id 5 from a one-switch topology reports
`UnknownSwitch` and leaves the topology unchanged. -/
theorem C9_remove_unknown_witness :
    (netW9.remove_switch 5).2 = some NetError.UnknownSwitch ∧
    (netW9.remove_switch 5).1 = netW9 :=
  ⟨(C9_remove_unknown netW9 5 (by decide)).1.mpr (by decide),
   (C9_remove_unknown netW9 5 (by decide)).2 (by decide)⟩

/-! ## Counting lemmas for the connect fan-out -/

lemma sum_lengths_set_append (l : List (List Int)) (p : Nat) (x : Int) (hp : p < l.length) :
    ((l.set p (l.getD p [] ++ [x])).map List.length).sum = ((l.map List.length).sum) + 1 := by
  induction l generalizing p with
  | nil => simp at hp
  | cons a t ih =>
    cases p with
    | zero =>
      show (((a ++ [x]) :: t).map List.length).sum = ((a :: t).map List.length).sum + 1
      simp [List.length_append]
      omega
    | succ f =>
      have hp' : f < t.length := by simpa using hp
      show ((a :: t.set f (t.getD f [] ++ [x])).map List.length).sum =
        ((a :: t).map List.length).sum + 1
      simp only [List.map_cons, List.sum_cons]
      rw [ih f hp']
      omega

lemma add_neighbor_entrySum (s : Switch) (nid : Int) (p : Nat) (hp : p < s.neighbors.length) :
    entrySum (s.add_neighbor nid p) = entrySum s + 1 := by
  show ((s.neighbors.set p (s.neighbors.getD p [] ++ [nid])).map List.length).sum =
    (s.neighbors.map List.length).sum + 1
  exact sum_lengths_set_append s.neighbors p nid hp

lemma add_neighbor_length (s : Switch) (nid : Int) (p : Nat) :
    (s.add_neighbor nid p).neighbors.length = s.neighbors.length := by
  show (s.neighbors.set p _).length = s.neighbors.length
  exact List.length_set s.neighbors p _

lemma map_modify_id (l : List (Int × Switch)) (i : Int) (f : Switch → Switch)
    (h : ∀ p ∈ l, p.1 ≠ i) :
    l.map (fun p => if p.1 = i then (p.1, f p.2) else p) = l := by
  calc l.map (fun p => if p.1 = i then (p.1, f p.2) else p)
      = l.map id := List.map_congr_left (fun p hp => by rw [if_neg (h p hp)]; rfl)
    _ = l := List.map_id _

lemma modify_keys (l : List (Int × Switch)) (i : Int) (f : Switch → Switch) :
    (l.map (fun p => if p.1 = i then (p.1, f p.2) else p)).map Prod.fst = l.map Prod.fst := by
  rw [List.map_map]
  apply List.map_congr_left
  intro p _
  by_cases h : p.1 = i <;> simp [h]

lemma total_modify (l : List (Int × Switch)) (i : Int) (f : Switch → Switch)
    (hnodup : (l.map Prod.fst).Nodup) (s : Switch) (hmem : (i, s) ∈ l)
    (hf : entrySum (f s) = entrySum s + 1) :
    ((l.map (fun p => if p.1 = i then (p.1, f p.2) else p)).map (fun p => entrySum p.2)).sum =
      ((l.map (fun p => entrySum p.2)).sum) + 1 := by
  induction l with
  | nil => simp at hmem
  | cons a t ih =>
    rcases List.mem_cons.mp hmem with h | h
    · have hkey : ∀ p ∈ t, p.1 ≠ i := by
        intro p hp hpe
        rw [← h] at hnodup
        have hni : i ∉ t.map Prod.fst := (List.nodup_cons.mp hnodup).1
        exact hni (List.mem_map.mpr ⟨p, hp, hpe⟩)
      rw [← h]
      simp only [List.map_cons]
      rw [map_modify_id t i f hkey]
      simp [hf]
      omega
    · have hai : a.1 ≠ i := by
        intro he
        have hmemk : i ∈ t.map Prod.fst := List.mem_map.mpr ⟨(i, s), h, rfl⟩
        rw [List.map_cons] at hnodup
        exact (List.nodup_cons.mp hnodup).1 (he ▸ hmemk)
      have ih' := ih (by rw [List.map_cons] at hnodup; exact (List.nodup_cons.mp hnodup).2) h
      simp only [List.map_cons, if_neg hai, List.sum_cons, ih']
      omega

lemma EPvalid_modify (net : Network) (i : Int) (f : Switch → Switch)
    (hf : ∀ t : Switch, (f t).neighbors.length = t.neighbors.length)
    (e : Int × Nat) (he : EPvalid net e) : EPvalid (net.modifySwitch i f) e := by
  obtain ⟨pr, hpr, hfst, hlt⟩ := he
  refine ⟨if pr.1 = i then (pr.1, f pr.2) else pr, List.mem_map_of_mem _ hpr, ?_, ?_⟩
  · by_cases h : pr.1 = i
    · rw [if_pos h]
      exact hfst
    · rw [if_neg h]
      exact hfst
  · by_cases h : pr.1 = i
    · rw [if_pos h]
      show e.2 < (f pr.2).neighbors.length
      rw [hf pr.2]
      exact hlt
    · rw [if_neg h]
      exact hlt

lemma total_add_connection (net : Network) (e1 e2 : Int × Nat)
    (hnodup : (net.switches.map Prod.fst).Nodup)
    (h1 : EPvalid net e1) (h2 : EPvalid net e2) :
    (net.add_connection e1.1 e1.2 e2.1 e2.2).totalNeighborEntries =
      net.totalNeighborEntries + 2 ∧
    (net.add_connection e1.1 e1.2 e2.1 e2.2).switches.map Prod.fst =
      net.switches.map Prod.fst ∧
    (∀ e : Int × Nat, EPvalid net e → EPvalid (net.add_connection e1.1 e1.2 e2.1 e2.2) e) := by
  obtain ⟨p1, hp1, hf1, hl1⟩ := h1
  have hstep1 : (net.modifySwitch e1.1 (fun s => s.add_neighbor e2.1 e1.2)).totalNeighborEntries =
      net.totalNeighborEntries + 1 := by
    have hmem' : (e1.1, p1.2) ∈ net.switches := by
      rw [← hf1]
      obtain ⟨a, b⟩ := p1
      exact hp1
    exact total_modify net.switches e1.1 (fun s => s.add_neighbor e2.1 e1.2) hnodup p1.2
      hmem' (add_neighbor_entrySum p1.2 e2.1 e1.2 hl1)
  have hkeys1 : (net.modifySwitch e1.1 (fun s => s.add_neighbor e2.1 e1.2)).switches.map
      Prod.fst = net.switches.map Prod.fst := by
    show ((net.switches.map (fun p =>
        if p.1 = e1.1 then (p.1, (fun s => s.add_neighbor e2.1 e1.2) p.2) else p)).map
      Prod.fst) = net.switches.map Prod.fst
    exact modify_keys net.switches e1.1 (fun s => s.add_neighbor e2.1 e1.2)
  have hval1 : ∀ e : Int × Nat, EPvalid net e →
      EPvalid (net.modifySwitch e1.1 (fun s => s.add_neighbor e2.1 e1.2)) e :=
    fun e he => EPvalid_modify net e1.1 _ (fun t => add_neighbor_length t e2.1 e1.2) e he
  have hnodup1 : ((net.modifySwitch e1.1 (fun s => s.add_neighbor e2.1 e1.2)).switches.map
      Prod.fst).Nodup := by
    rw [hkeys1]
    exact hnodup
  obtain ⟨q2, hq2, hg2, hlq2⟩ := hval1 e2 h2
  have hstep2 : (net.add_connection e1.1 e1.2 e2.1 e2.2).totalNeighborEntries =
      (net.modifySwitch e1.1 (fun s => s.add_neighbor e2.1 e1.2)).totalNeighborEntries + 1 := by
    have hmem' : (e2.1, q2.2) ∈
        (net.modifySwitch e1.1 (fun s => s.add_neighbor e2.1 e1.2)).switches := by
      have hq2' : (q2.1, q2.2) ∈
          (net.modifySwitch e1.1 (fun s => s.add_neighbor e2.1 e1.2)).switches := by
        obtain ⟨a, b⟩ := q2
        exact hq2
      rw [hg2] at hq2'
      exact hq2'
    exact total_modify (net.modifySwitch e1.1 (fun s => s.add_neighbor e2.1 e1.2)).switches
      e2.1 (fun s => s.add_neighbor e1.1 e2.2) hnodup1 q2.2 hmem'
      (add_neighbor_entrySum q2.2 e1.1 e2.2 hlq2)
  refine ⟨by rw [hstep2, hstep1], ?_, ?_⟩
  · have k2 : ((net.modifySwitch e1.1 (fun s => s.add_neighbor e2.1 e1.2)).modifySwitch e2.1
        (fun s => s.add_neighbor e1.1 e2.2)).switches.map Prod.fst =
        (net.modifySwitch e1.1 (fun s => s.add_neighbor e2.1 e1.2)).switches.map Prod.fst := by
      show (((net.modifySwitch e1.1 (fun s => s.add_neighbor e2.1 e1.2)).switches.map (fun p =>
          if p.1 = e2.1 then (p.1, (fun s => s.add_neighbor e1.1 e2.2) p.2) else p)).map
        Prod.fst) = _
      exact modify_keys (net.modifySwitch e1.1 (fun s => s.add_neighbor e2.1 e1.2)).switches
        e2.1 (fun s => s.add_neighbor e1.1 e2.2)
    exact k2.trans hkeys1
  · intro e he
    exact EPvalid_modify _ e2.1 _ (fun t => add_neighbor_length t e1.1 e2.2) e (hval1 e he)

lemma total_foldpairs (L : List ((Int × Nat) × (Int × Nat))) (net : Network)
    (hnodup : (net.switches.map Prod.fst).Nodup)
    (hall : ∀ pr ∈ L, EPvalid net pr.1 ∧ EPvalid net pr.2) :
    (L.foldl (fun acc2 pr => acc2.add_connection pr.1.1 pr.1.2 pr.2.1 pr.2.2)
        net).totalNeighborEntries =
      net.totalNeighborEntries + 2 * L.length := by
  induction L generalizing net with
  | nil => simp
  | cons pr t ih =>
    have h1 := hall pr (List.mem_cons_self pr t)
    have hcon := total_add_connection net pr.1 pr.2 hnodup h1.1 h1.2
    rw [List.foldl_cons]
    have hnodup' : ((net.add_connection pr.1.1 pr.1.2 pr.2.1 pr.2.2).switches.map
        Prod.fst).Nodup := by
      rw [hcon.2.1]
      exact hnodup
    have hall' : ∀ q ∈ t, EPvalid (net.add_connection pr.1.1 pr.1.2 pr.2.1 pr.2.2) q.1 ∧
        EPvalid (net.add_connection pr.1.1 pr.1.2 pr.2.1 pr.2.2) q.2 := by
      intro q hq
      have := hall q (List.mem_cons_of_mem pr hq)
      exact ⟨hcon.2.2 q.1 this.1, hcon.2.2 q.2 this.2⟩
    rw [ih _ hnodup' hall', hcon.1, List.length_cons]
    omega

lemma length_filter_ne {α : Type} [DecidableEq α] (l : List α) (x : α) :
    (l.filter (fun y => decide (y ≠ x))).length = l.length - l.count x := by
  induction l with
  | nil => rfl
  | cons a t ih =>
    by_cases h : a = x
    · subst h
      have h1 : (a :: t).filter (fun y => decide (y ≠ a)) =
          t.filter (fun y => decide (y ≠ a)) := by
        rw [List.filter_cons]
        simp
      rw [h1, ih, List.count_cons_self]
      simp only [List.length_cons]
      omega
    · have h1 : (a :: t).filter (fun y => decide (y ≠ x)) =
          a :: t.filter (fun y => decide (y ≠ x)) := by
        rw [List.filter_cons]
        simp [h]
      rw [h1, List.length_cons, ih, List.count_cons_of_ne (fun he => h he.symm)]
      simp only [List.length_cons]
      have := List.count_le_length x t
      omega

lemma perms2_mem {α : Type} [DecidableEq α] {l : List α} {x y : α}
    (h : (x, y) ∈ perms2 l) : x ∈ l ∧ y ∈ l := by
  rw [perms2] at h
  obtain ⟨a, ha, hin⟩ := List.mem_flatMap.mp h
  obtain ⟨b, hb, he⟩ := List.mem_map.mp hin
  obtain ⟨he1, he2⟩ := Prod.mk.injEq .. ▸ he
  rw [← he1, ← he2]
  exact ⟨ha, (List.mem_filter.mp hb).1⟩

lemma perms2_length {α : Type} [DecidableEq α] (l : List α) (h : l.Nodup) :
    (perms2 l).length = l.length * (l.length - 1) := by
  rw [perms2, List.length_flatMap]
  have hx : ∀ x ∈ l, (Function.comp List.length
      (fun x => (l.filter (fun y => decide (y ≠ x))).map (fun y => (x, y)))) x =
      l.length - 1 := by
    intro x hxl
    show ((l.filter (fun y => decide (y ≠ x))).map (fun y => (x, y))).length = l.length - 1
    rw [List.length_map, length_filter_ne, List.count_eq_one_of_mem h hxl]
  rw [List.map_congr_left hx, List.map_const', List.sum_const_nat]

/-- C2 amended: connecting a group of k distinct valid endpoints adds exactly
2·k·(k−1) directed neighbor entries — the source iterates over all ordered
pairs of distinct endpoints and adds two entries per pair, so every ordered
pair's entry is created twice. -/
theorem C2_amended_fanout (net : Network) (group : List (Int × Nat))
    (hkeys : (net.switches.map Prod.fst).Nodup)
    (hgroup : group.Nodup)
    (hvalid : ∀ e ∈ group, EPvalid net e) :
    (net.add_connections [group]).totalNeighborEntries =
      net.totalNeighborEntries + 2 * (group.length * (group.length - 1)) := by
  have hconn : net.add_connections [group] =
      (perms2 group).foldl (fun acc2 pr => acc2.add_connection pr.1.1 pr.1.2 pr.2.1 pr.2.2)
        net := rfl
  rw [hconn]
  rw [total_foldpairs (perms2 group) net hkeys ?hall]
  · rw [perms2_length group hgroup]
  case hall =>
    intro pr hpr
    obtain ⟨e1, e2⟩ := pr
    have hm := perms2_mem hpr
    exact ⟨hvalid e1 hm.1, hvalid e2 hm.2⟩

/-- C2 amended witness: connecting the two-endpoint group `[(0,0),(1,0)]` on
two fresh one-port switches adds 2·2·(2−1) = 4 entries. -/
theorem C2_amended_fanout_witness :
    (netC2.add_connections [[(0, 0), (1, 0)]]).totalNeighborEntries =
      netC2.totalNeighborEntries + 2 * (2 * (2 - 1)) :=
  C2_amended_fanout netC2 [(0, 0), (1, 0)] (by decide) (by decide) (by decide)

end StpSim
